import Mathlib

/-!
# A verification development for the soxdrawer gateway

This file embeds, shallowly, the authentication/session subsystem and the
object-key lifecycle pipeline of the soxdrawer repository (Go), and proves
properties about the embedding.

Modelling conventions:

* Go strings are modelled as `List Char` (Go iterates runes; all code under
  scrutiny treats strings rune-wise or byte-wise over ASCII data).
* Unix timestamps (`time.Now().Unix()`) are modelled as `Nat` seconds;
  `time.Since(t) > d` over a seconds-granularity clock is `now - t > d`
  with truncated `Nat` subtraction (a negative Go duration is not greater
  than a positive one, and `Nat` truncation at zero agrees with that).
* HMAC-SHA256 (`crypto/hmac` + `crypto/sha256`, an external library) is an
  abstract parameter `mac : List Char → List Char → List Nat` producing a
  byte sequence from a key and a message; `encoding/hex.EncodeToString` is
  embedded concretely, so that signatures never contain a `'.'` no matter
  what `mac` returns.
* Go maps are modelled as association lists (`List (key × value)`), with
  lookup by first match and delete by filtering the key out.
* Error returns (`error` values) are modelled as `Except`/`Option` results;
  Go code never panics in the fragments embedded here.
-/

/-! ## Decimal printing and parsing

`fmt.Sprintf("%d", n)` and `fmt.Sscanf(s, "%d", &n)` for non-negative
integers.  Printing uses a fuel-driven digit peel (fuel = the number
itself, ample since each step divides by 10); it is related to
`Nat.digits` for the proofs. -/

/-- Digit value to character, as produced by `fmt` for base 10. -/
def digitCh : Nat → Char
  | 0 => '0' | 1 => '1' | 2 => '2' | 3 => '3' | 4 => '4'
  | 5 => '5' | 6 => '6' | 7 => '7' | 8 => '8' | _ => '9'

/-- Little-endian digits of `n`, driven by fuel. -/
def digitsRevFuel : Nat → Nat → List Nat
  | 0, _ => []
  | fuel + 1, n => if n = 0 then [] else n % 10 :: digitsRevFuel fuel (n / 10)

/-- `fmt.Sprintf("%d", n)` for a non-negative integer. -/
def printNat (n : Nat) : List Char :=
  if n = 0 then ['0'] else ((digitsRevFuel n n).map digitCh).reverse

/-- Is `c` an ASCII decimal digit? -/
def isDigitCh (c : Char) : Bool := 48 ≤ c.toNat && c.toNat ≤ 57

/-- Character to digit value. -/
def digitVal (c : Char) : Nat := c.toNat - 48

/-- `fmt.Sscanf(s, "%d", &n)`: scan a maximal run of leading decimal
digits; when there is none the scanned variable keeps its zero value
(the Go code ignores the `Sscanf` error).  Negative inputs never arise on
the paths embedded here (signatures are checked before parsing, and the
code only ever signs `printNat` timestamps). -/
def parseDec (s : List Char) : Nat :=
  (s.takeWhile isDigitCh).foldl (fun a c => a * 10 + digitVal c) 0

theorem digitsRevFuel_eq_digits (fuel n : Nat) (h : n ≤ fuel) :
    digitsRevFuel fuel n = Nat.digits 10 n := by
  induction fuel generalizing n with
  | zero =>
    have hn : n = 0 := Nat.le_zero.mp h
    subst hn; simp [digitsRevFuel]
  | succ f ih =>
    by_cases hn : n = 0
    · subst hn; simp [digitsRevFuel]
    · have h10 : n / 10 ≤ f := by
        have := Nat.div_lt_self (Nat.pos_of_ne_zero hn) (by omega : 1 < 10)
        omega
      rw [digitsRevFuel, if_neg hn, ih _ h10,
        Nat.digits_def' (by omega : 1 < 10) (Nat.pos_of_ne_zero hn)]

theorem digitVal_digitCh {d : Nat} (h : d < 10) : digitVal (digitCh d) = d := by
  interval_cases d <;> decide

theorem isDigitCh_digitCh {d : Nat} (h : d < 10) : isDigitCh (digitCh d) = true := by
  interval_cases d <;> decide

theorem digitCh_ne_dot {d : Nat} : digitCh d ≠ '.' := by
  unfold digitCh
  split <;> decide

/-- Folding the printed digits back is `Nat.ofDigits`. -/
theorem foldl_digits (l : List Nat) (hl : ∀ d ∈ l, d < 10) :
    ((l.map digitCh).reverse).foldl (fun a c => a * 10 + digitVal c) 0 =
      Nat.ofDigits 10 l := by
  rw [List.foldl_reverse, List.foldr_map]
  induction l with
  | nil => simp [Nat.ofDigits]
  | cons d t ih =>
    have hd : d < 10 := hl d (by simp)
    have ht : ∀ x ∈ t, x < 10 := fun x hx => hl x (by simp [hx])
    simp only [List.foldr_cons, ih ht, Nat.ofDigits_cons,
      digitVal_digitCh hd]
    ring

theorem printNat_all_digits (n : Nat) : ∀ c ∈ printNat n, isDigitCh c = true := by
  intro c hc
  unfold printNat at hc
  by_cases hn : n = 0
  · simp [hn] at hc; subst hc; decide
  · rw [if_neg hn] at hc
    simp only [List.mem_reverse, List.mem_map] at hc
    obtain ⟨d, hd, rfl⟩ := hc
    rw [digitsRevFuel_eq_digits n n le_rfl] at hd
    exact isDigitCh_digitCh (Nat.digits_lt_base (by omega) hd)

theorem printNat_ne_nil (n : Nat) : printNat n ≠ [] := by
  unfold printNat
  by_cases hn : n = 0
  · simp [hn]
  · rw [if_neg hn]
    simp only [ne_eq, List.reverse_eq_nil_iff, List.map_eq_nil_iff]
    rw [digitsRevFuel_eq_digits n n le_rfl]
    exact Nat.digits_ne_nil_iff_ne_zero.mpr hn

theorem printNat_no_dot (n : Nat) : ∀ c ∈ printNat n, c ≠ '.' := by
  intro c hc
  have := printNat_all_digits n c hc
  intro h; subst h; simp [isDigitCh] at this

/-- Decimal round trip: scanning a printed number recovers it. -/
theorem parseDec_printNat (n : Nat) : parseDec (printNat n) = n := by
  unfold parseDec
  rw [List.takeWhile_eq_self_iff.mpr (by
    intro c hc; exact printNat_all_digits n c hc)]
  unfold printNat
  by_cases hn : n = 0
  · simp [hn, digitVal]
  · rw [if_neg hn, foldl_digits _ (fun d hd => by
      rw [digitsRevFuel_eq_digits n n le_rfl] at hd
      exact Nat.digits_lt_base (by omega) hd)]
    rw [digitsRevFuel_eq_digits n n le_rfl, Nat.ofDigits_digits]

/-! ## Hex encoding

`encoding/hex.EncodeToString`: two lowercase hex characters per byte. -/

/-- Hex digit table lookup (`0..15`). -/
def hexDigitCh : Nat → Char
  | 0 => '0' | 1 => '1' | 2 => '2' | 3 => '3' | 4 => '4' | 5 => '5'
  | 6 => '6' | 7 => '7' | 8 => '8' | 9 => '9' | 10 => 'a' | 11 => 'b'
  | 12 => 'c' | 13 => 'd' | 14 => 'e' | _ => 'f'

/-- `hex.EncodeToString`: each byte becomes its high then low nibble. -/
def hexEncode (bs : List Nat) : List Char :=
  bs.flatMap fun b => [hexDigitCh (b / 16 % 16), hexDigitCh (b % 16)]

theorem hexDigitCh_ne_dot (k : Nat) : hexDigitCh k ≠ '.' := by
  unfold hexDigitCh
  split <;> decide

theorem hexEncode_no_dot (bs : List Nat) : ∀ c ∈ hexEncode bs, c ≠ '.' := by
  intro c hc
  simp only [hexEncode, List.mem_flatMap, List.mem_cons, List.mem_singleton,
    List.not_mem_nil, or_false] at hc
  obtain ⟨b, _, h | h⟩ := hc <;> (subst h; apply hexDigitCh_ne_dot)

/-! ## Splitting

`strings.Split(s, sep)` for a one-character separator. -/

/-- `strings.Split` on a single-character separator. `splitOn sep "" = [""]`,
matching Go. -/
def splitOn (sep : Char) : List Char → List (List Char)
  | [] => [[]]
  | c :: rest =>
    if c = sep then [] :: splitOn sep rest
    else
      match splitOn sep rest with
      | [] => [[c]]
      | t :: ts => (c :: t) :: ts

theorem splitOn_no_sep (sep : Char) (l : List Char) (h : ∀ c ∈ l, c ≠ sep) :
    splitOn sep l = [l] := by
  induction l with
  | nil => rfl
  | cons c rest ih =>
    have hc : c ≠ sep := h c (by simp)
    rw [splitOn, if_neg hc, ih (fun x hx => h x (by simp [hx]))]

/-- Splitting a string built as `a ++ sep ++ b`, with the separator in
neither part, yields exactly the two parts. -/
theorem splitOn_append (sep : Char) (a b : List Char)
    (ha : ∀ c ∈ a, c ≠ sep) (hb : ∀ c ∈ b, c ≠ sep) :
    splitOn sep (a ++ sep :: b) = [a, b] := by
  induction a with
  | nil => simp [splitOn, splitOn_no_sep sep b hb]
  | cons c rest ih =>
    have hc : c ≠ sep := ha c (by simp)
    rw [List.cons_append, splitOn, if_neg hc,
      ih (fun x hx => ha x (by simp [hx]))]

/-! ## Stateless session tokens

Embedding of `createSessionToken` / `validateSessionToken` from
`internal/http/auth.go` (the signed-cookie strategy).  `SessionDuration`
is `12 * time.Hour`; times are in seconds. -/

/-- `SessionDuration = 12 * time.Hour`, in seconds. -/
def SessionDurationSec : Nat := 12 * 60 * 60

/-- The possible failures of `validateSessionToken` (the three distinct
`error` values the Go function returns). -/
inductive ValidateErr where
  | malformedToken
  | badSignature
  | expired
deriving DecidableEq, Repr

/-- `createSessionToken(authToken)` at time `now` (seconds): the token is
`"{timestamp}.{hex(HMAC(authToken, timestamp))}"`. -/
def createSessionToken (mac : List Char → List Char → List Nat)
    (authToken : List Char) (now : Nat) : List Char :=
  let timestamp := printNat now
  let signature := hexEncode (mac authToken timestamp)
  timestamp ++ '.' :: signature

/-- `validateSessionToken(sessionToken, authToken)` at time `now`:
split on `'.'` (malformed unless exactly two fields), recompute and
compare the HMAC (`hmac.Equal` is equality), then check
`time.Since(tokenTime) > SessionDuration`. -/
def validateSessionToken (mac : List Char → List Char → List Nat)
    (sessionToken authToken : List Char) (now : Nat) :
    Except ValidateErr Unit :=
  match splitOn '.' sessionToken with
  | [timestamp, signature] =>
    let expected := hexEncode (mac authToken timestamp)
    if signature ≠ expected then .error .badSignature
    else
      let tokenTime := parseDec timestamp
      if now - tokenTime > SessionDurationSec then .error .expired
      else .ok ()
  | _ => .error .malformedToken

/-- Validation of a freshly issued token reduces to the expiry check. -/
theorem validate_create (mac : List Char → List Char → List Nat)
    (secret : List Char) (t now : Nat) :
    validateSessionToken mac (createSessionToken mac secret t) secret now =
      if now - t > SessionDurationSec then .error .expired else .ok () := by
  unfold validateSessionToken createSessionToken
  rw [splitOn_append '.' _ _ (printNat_no_dot t)
    (hexEncode_no_dot (mac secret (printNat t)))]
  simp [parseDec_printNat]

/-- A concrete MAC instance used for witnesses: any function of the right
type exercises the definitions, since both issue and validate apply the
same one. -/
def macW : List Char → List Char → List Nat := fun _ _ => [171, 5]

/-- A concrete secret used for witnesses. -/
def secretW : List Char := "server-auth-token".toList

/-- C1: for every secret and issue time, a token issued at `t` validates
against the same secret at `now` when `now - t` is under the 12-hour
session duration, and fails with the `Expired` error when `now - t`
exceeds it. -/
theorem issued_token_validation_window
    (mac : List Char → List Char → List Nat) (secret : List Char)
    (t now : Nat) :
    (now - t < SessionDurationSec →
      validateSessionToken mac (createSessionToken mac secret t) secret now =
        .ok ()) ∧
    (now - t > SessionDurationSec →
      validateSessionToken mac (createSessionToken mac secret t) secret now =
        .error .expired) := by
  rw [validate_create]
  constructor
  · intro h; rw [if_neg (by omega)]
  · intro h; rw [if_pos h]

/-- Witness for C1: issue at t = 1000; validation at 2000 s (elapsed
under 12 h) succeeds, validation at 50000 s (elapsed over 12 h) is
`Expired`. -/
theorem issued_token_validation_window_witness :
    (2000 - 1000 < SessionDurationSec ∧
      validateSessionToken macW (createSessionToken macW secretW 1000)
        secretW 2000 = .ok ()) ∧
    (50000 - 1000 > SessionDurationSec ∧
      validateSessionToken macW (createSessionToken macW secretW 1000)
        secretW 50000 = .error .expired) :=
  ⟨⟨by decide,
    (issued_token_validation_window macW secretW 1000 2000).1 (by decide)⟩,
   ⟨by decide,
    (issued_token_validation_window macW secretW 1000 50000).2 (by decide)⟩⟩

/-! ## Key Addressing

Embedding of `sanitizeFilename` from `internal/http/server.go` and the key
construction in `uploadHandler`.  `filepath.Base` is embedded for the
target platform (Unix: the only path separator is `'/'`, the volume name
is empty). -/

/-- The character predicate of `sanitizeFilename`'s `strings.Map`
callback: `[A-Za-z0-9._-]` is kept, everything else is replaced. -/
def isAllowedCh (c : Char) : Bool :=
  ('a' ≤ c && c ≤ 'z') || ('A' ≤ c && c ≤ 'Z') || ('0' ≤ c && c ≤ '9') ||
    c = '.' || c = '-' || c = '_'

/-- The `strings.Map` callback: keep allowed runes, map the rest to `'_'`. -/
def sanitizeMapCh (c : Char) : Char := if isAllowedCh c then c else '_'

/-- `filepath.Base`, step 1: strip trailing separators. -/
def dropTrailingSlashes (p : List Char) : List Char :=
  (p.reverse.dropWhile (fun c => c = '/')).reverse

/-- `filepath.Base`, step 2: keep everything after the last separator
(the whole string when there is none). -/
def afterLastSlash (p : List Char) : List Char :=
  (p.reverse.takeWhile (fun c => c ≠ '/')).reverse

/-- `filepath.Base(path)` on Unix: `"."` for the empty path, `"/"` for a
path of only separators, otherwise the last path element. -/
def basename (p : List Char) : List Char :=
  if p = [] then ['.']
  else
    let q := afterLastSlash (dropTrailingSlashes p)
    if q = [] then ['/'] else q

/-- The fallback name substituted for empty or `"."` results. -/
def unnamedFile : List Char := "unnamed_file".toList

/-- `sanitizeFilename(filename)`: base name, character mapping, fallback. -/
def sanitizeFilename (filename : List Char) : List Char :=
  let base := basename filename
  let cleaned := base.map sanitizeMapCh
  if cleaned = [] ∨ cleaned = ['.'] then unnamedFile else cleaned

/-- The key construction in `uploadHandler`:
`fmt.Sprintf("%d_%s", timestamp, cleanFilename)`. -/
def makeKey (timestamp : Nat) (rawName : List Char) : List Char :=
  printNat timestamp ++ '_' :: sanitizeFilename rawName

theorem isAllowedCh_underscore : isAllowedCh '_' = true := by decide

theorem sanitizeMapCh_allowed (c : Char) :
    isAllowedCh (sanitizeMapCh c) = true := by
  unfold sanitizeMapCh
  by_cases h : isAllowedCh c
  · rw [if_pos h]; exact h
  · rw [if_neg h]; decide

/-- Every character of a sanitized name lies in `[A-Za-z0-9._-]`. -/
theorem sanitizeFilename_all_allowed (filename : List Char) :
    ∀ c ∈ sanitizeFilename filename, isAllowedCh c = true := by
  intro c hc
  unfold sanitizeFilename at hc
  dsimp only at hc
  split at hc
  · revert hc
    have : ∀ c ∈ unnamedFile, isAllowedCh c = true := by decide
    exact this c
  · simp only [List.mem_map] at hc
    obtain ⟨x, _, rfl⟩ := hc
    exact sanitizeMapCh_allowed x

/-- A sanitized name is never empty. -/
theorem sanitizeFilename_ne_nil (filename : List Char) :
    sanitizeFilename filename ≠ [] := by
  unfold sanitizeFilename
  dsimp only
  split
  · decide
  · next h =>
    intro hnil
    exact h (Or.inl hnil)

/-- A sanitized name is never the single dot. -/
theorem sanitizeFilename_ne_dot (filename : List Char) :
    sanitizeFilename filename ≠ ['.'] := by
  unfold sanitizeFilename
  dsimp only
  split
  · decide
  · next h =>
    intro hdot
    exact h (Or.inr hdot)

/-- C2: for every raw filename (the traversal string `"../../etc/passwd"`,
the empty string and all-disallowed strings included) and every upload
timestamp, the upload key decomposes as a non-empty digit string, an
underscore, and a non-empty `[A-Za-z0-9._-]` string — i.e. it matches
`^[0-9]+_[A-Za-z0-9._-]+$` and is non-empty. -/
theorem upload_key_shape (timestamp : Nat) (rawName : List Char) :
    ∃ a b : List Char,
      makeKey timestamp rawName = a ++ '_' :: b ∧
      a ≠ [] ∧ (∀ c ∈ a, isDigitCh c = true) ∧
      b ≠ [] ∧ (∀ c ∈ b, isAllowedCh c = true) := by
  refine ⟨printNat timestamp, sanitizeFilename rawName, rfl,
    printNat_ne_nil timestamp, printNat_all_digits timestamp,
    sanitizeFilename_ne_nil rawName, sanitizeFilename_all_allowed rawName⟩

theorem isAllowedCh_ne_slash {c : Char} (h : isAllowedCh c = true) :
    c ≠ '/' := by
  intro hc; subst hc; simp [isAllowedCh] at h

theorem dropWhile_eq_self {p : Char → Bool} {l : List Char}
    (h : ∀ c ∈ l, p c = false) : l.dropWhile p = l := by
  cases l with
  | nil => rfl
  | cons c t => rw [List.dropWhile_cons, h c (by simp)]; simp

theorem takeWhile_eq_self {p : Char → Bool} {l : List Char}
    (h : ∀ c ∈ l, p c = true) : l.takeWhile p = l := by
  induction l with
  | nil => rfl
  | cons c t ih =>
    rw [List.takeWhile_cons, h c (by simp), if_pos rfl,
      ih (fun x hx => h x (by simp [hx]))]

/-- On a string without separators, `filepath.Base` is the identity
(provided the string is non-empty). -/
theorem basename_no_slash {p : List Char} (hne : p ≠ [])
    (h : ∀ c ∈ p, c ≠ '/') : basename p = p := by
  unfold basename dropTrailingSlashes afterLastSlash
  rw [if_neg hne]
  rw [dropWhile_eq_self (p := fun c => c = '/') (by
    intro c hc
    simp only [List.mem_reverse] at hc
    simp [h c hc])]
  rw [List.reverse_reverse]
  rw [takeWhile_eq_self (p := fun c => c ≠ '/') (by
    intro c hc
    simp only [List.mem_reverse] at hc
    simp [h c hc])]
  rw [List.reverse_reverse, if_neg hne]

theorem map_sanitize_allowed {l : List Char}
    (h : ∀ c ∈ l, isAllowedCh c = true) : l.map sanitizeMapCh = l := by
  induction l with
  | nil => rfl
  | cons c t ih =>
    rw [List.map_cons, ih (fun x hx => h x (by simp [hx]))]
    unfold sanitizeMapCh
    rw [if_pos (h c (by simp))]

/-- C10: filename sanitization is idempotent — the output contains no
path separator, consists of kept characters only, and is neither empty
nor `"."`, so it sanitizes to itself. -/
theorem sanitizeFilename_idempotent (s : List Char) :
    sanitizeFilename (sanitizeFilename s) = sanitizeFilename s := by
  have hall := sanitizeFilename_all_allowed s
  have hne := sanitizeFilename_ne_nil s
  have hdot := sanitizeFilename_ne_dot s
  conv_lhs => rw [sanitizeFilename]
  rw [basename_no_slash hne (fun c hc => isAllowedCh_ne_slash (hall c hc))]
  rw [map_sanitize_allowed hall]
  rw [if_neg (by
    intro hc
    rcases hc with hc | hc
    · exact hne hc
    · exact hdot hc)]

/-! ## Go string helpers used by the handlers

`strings.HasPrefix`, `strings.TrimPrefix`, `strings.TrimSpace`. -/

/-- `strings.HasPrefix(s, pfx)` (arguments here: prefix first). -/
def hasPfx : List Char → List Char → Bool
  | [], _ => true
  | _ :: _, [] => false
  | a :: as, b :: bs => if a = b then hasPfx as bs else false

/-- `strings.TrimPrefix(s, pfx)`: drop the prefix when present,
otherwise return `s` unchanged. -/
def trimPfxGo (pfx s : List Char) : List Char :=
  if hasPfx pfx s then s.drop pfx.length else s

/-- Whitespace per `unicode.IsSpace`, restricted to the ASCII range
(no key or path in this development contains non-ASCII whitespace). -/
def isSpaceCh (c : Char) : Bool :=
  c = ' ' || c = '\t' || c = '\n' || c = '\x0b' || c = '\x0c' || c = '\r'

/-- `strings.TrimSpace`: drop leading and trailing whitespace. -/
def trimSpace (s : List Char) : List Char :=
  ((s.dropWhile isSpaceCh).reverse.dropWhile isSpaceCh).reverse

theorem dropWhile_append_singleton {p : Char → Bool} {c : Char}
    (hc : p c = false) (xs : List Char) :
    (xs ++ [c]).dropWhile p = xs.dropWhile p ++ [c] := by
  induction xs with
  | nil => simp [List.dropWhile_cons, hc]
  | cons x t ih =>
    rw [List.cons_append, List.dropWhile_cons, List.dropWhile_cons]
    by_cases hx : p x
    · rw [hx, if_pos rfl, if_pos rfl, ih]
    · rw [Bool.not_eq_true] at hx
      rw [hx]
      simp

/-- Trimming does not touch a non-whitespace head character. -/
theorem trimSpace_cons {c : Char} (hc : isSpaceCh c = false) (t : List Char) :
    trimSpace (c :: t) = c :: (t.reverse.dropWhile isSpaceCh).reverse := by
  unfold trimSpace
  rw [List.dropWhile_cons, hc]
  simp only [Bool.false_eq_true, if_false, List.reverse_cons]
  rw [dropWhile_append_singleton hc, List.reverse_append]
  rfl

/-! ## The authentication gate and logout (stateless strategy)

Embedding of `authMiddleware` and `logoutHandler` from
`internal/http` (signed-cookie variant).  The only server-side
authentication state in this strategy is the configured auth token;
`logoutHandler` clears the client's cookie and touches nothing
server-side. -/

/-- A request as seen by the middleware: URL path, the session-cookie
value (`getSessionToken` returns `""`, i.e. `[]`, when the cookie is
absent), and whether the `Accept` header contains `text/html`. -/
structure MwRequest where
  path : List Char
  cookieSession : List Char
  acceptHtml : Bool

/-- What the middleware does with a request. -/
inductive MwOutcome where
  | toHandler
  | redirectLogin
  | unauthorized
deriving DecidableEq, Repr

/-- The fixed allow-list at the top of `authMiddleware`: login page,
login and logout API routes, and static assets. -/
def pathAllowListed (p : List Char) : Bool :=
  decide (p = "/login".toList) || decide (p = "/api/auth/login".toList) ||
    decide (p = "/api/auth/logout".toList) || hasPfx "/static/".toList p

/-- `authMiddleware(authToken)` applied to one request at time `now`. -/
def authMiddlewareGate (mac : List Char → List Char → List Nat)
    (authToken : List Char) (r : MwRequest) (now : Nat) : MwOutcome :=
  if pathAllowListed r.path then .toHandler
  else if r.cookieSession = [] then
    if r.acceptHtml then .redirectLogin else .unauthorized
  else
    match validateSessionToken mac r.cookieSession authToken now with
    | .ok _ => .toHandler
    | .error _ => if r.acceptHtml then .redirectLogin else .unauthorized

/-- The server-side state the stateless strategy keeps: only the
configured auth token (there is no session table). -/
structure AuthServerState where
  authToken : List Char
deriving DecidableEq

/-- `logoutHandler`: on POST it clears the session cookie on the client
(`clearSessionCookie`: `Max-Age: -1`) and answers 200; the server state
is returned unchanged.  Other methods get 405.  The result is
(state, HTTP status, cookie-cleared flag). -/
def logoutHandler (s : AuthServerState) (method : List Char) :
    AuthServerState × Nat × Bool :=
  if method = "POST".toList then (s, 200, true) else (s, 405, false)

theorem createSessionToken_ne_nil (mac : List Char → List Char → List Nat)
    (secret : List Char) (t : Nat) :
    createSessionToken mac secret t ≠ [] := by
  unfold createSessionToken
  intro h
  exact printNat_ne_nil t (List.append_eq_nil.mp h).1

/-- C4 counterexample: a successful POST `/api/auth/logout` leaves the
server state unchanged, and a subsequent GET `/api/list` presenting the
cookie that was valid before the logout still passes the auth gate
(outcome `toHandler`, not 401 or a redirect): issued at 1000 s, presented
at 2000 s, well inside the 12-hour lifetime. -/
theorem logout_keeps_old_cookie_valid_cex :
    logoutHandler ⟨secretW⟩ "POST".toList = (⟨secretW⟩, 200, true) ∧
    authMiddlewareGate macW secretW
      ⟨"/api/list".toList, createSessionToken macW secretW 1000, false⟩
      2000 = .toHandler := by
  constructor
  · decide
  · decide

/-- C4 amended: POST `/api/auth/logout` clears the session cookie on the
client and leaves the server state unchanged; a subsequent GET
`/api/list` that still presents the old cookie value is accepted while
the token is within its 12-hour lifetime, and is rejected (401, or a
redirect to the login page for HTML clients) only once the token has
expired. -/
theorem logout_leaves_token_valid_until_expiry
    (mac : List Char → List Char → List Nat) (secret : List Char)
    (t now : Nat) :
    logoutHandler ⟨secret⟩ "POST".toList = (⟨secret⟩, 200, true) ∧
    (now - t < SessionDurationSec →
      authMiddlewareGate mac secret
        ⟨"/api/list".toList, createSessionToken mac secret t, false⟩ now =
        .toHandler) ∧
    (now - t > SessionDurationSec →
      authMiddlewareGate mac secret
        ⟨"/api/list".toList, createSessionToken mac secret t, false⟩ now =
        .unauthorized) ∧
    (now - t > SessionDurationSec →
      authMiddlewareGate mac secret
        ⟨"/api/list".toList, createSessionToken mac secret t, true⟩ now =
        .redirectLogin) := by
  refine ⟨by rw [logoutHandler, if_pos rfl], ?_, ?_, ?_⟩ <;>
    · intro h
      unfold authMiddlewareGate
      dsimp only
      rw [if_neg (by decide), if_neg (createSessionToken_ne_nil mac secret t),
        validate_create]
      first
      | rw [if_neg (by omega)]
      | (rw [if_pos h]; rfl)

/-- Witness for the amended C4 theorem: issue at 1000 s; at 2000 s the
old cookie still passes the gate after logout, at 50000 s it is
rejected with 401. -/
theorem logout_leaves_token_valid_until_expiry_witness :
    (2000 - 1000 < SessionDurationSec ∧
      authMiddlewareGate macW secretW
        ⟨"/api/list".toList, createSessionToken macW secretW 1000, false⟩
        2000 = .toHandler) ∧
    (50000 - 1000 > SessionDurationSec ∧
      authMiddlewareGate macW secretW
        ⟨"/api/list".toList, createSessionToken macW secretW 1000, false⟩
        50000 = .unauthorized) :=
  ⟨⟨by decide,
    (logout_leaves_token_valid_until_expiry macW secretW 1000 2000).2.1
      (by decide)⟩,
   ⟨by decide,
    (logout_leaves_token_valid_until_expiry macW secretW 1000 50000).2.2.1
      (by decide)⟩⟩

/-! ## The object store and the gateway handlers

The NATS object-store bucket is an external collaborator; it behaves as a
keyed map.  The gateway never inspects stored bytes in any claim below,
so an object is represented by its byte count.  `bucket.Delete` fails
with `nats.ErrObjectNotFound` on an absent key; `bucket.Put` overwrites;
`store.Delete` wraps the backend error in a new non-nil error. -/

abbrev Bucket := List (List Char × Nat)

/-- Map lookup over an association list (first match). -/
def lookupKey {β : Type} : List (List Char × β) → List Char → Option β
  | [], _ => none
  | (k', v) :: t, k => if k' = k then some v else lookupKey t k

/-- Map deletion over an association list. -/
def eraseKey {β : Type} (m : List (List Char × β)) (k : List Char) :
    List (List Char × β) :=
  m.filter fun p => decide ¬(p.1 = k)

theorem lookupKey_eraseKey {β : Type} (m : List (List Char × β))
    (k : List Char) : lookupKey (eraseKey m k) k = none := by
  induction m with
  | nil => rfl
  | cons p t ih =>
    obtain ⟨k', v⟩ := p
    by_cases h : k' = k
    · simpa [eraseKey, h] using ih
    · simpa [eraseKey, lookupKey, h] using ih

theorem lookupKey_insert {β : Type} (m : List (List Char × β))
    (k : List Char) (v : β) : lookupKey ((k, v) :: m) k = some v := by
  simp [lookupKey]

/-- `ObjectStore.Delete`, including the backend behaviour: error on an
absent key, removal otherwise. -/
def storeDelete (b : Bucket) (k : List Char) : Except Unit Bucket :=
  match lookupKey b k with
  | none => .error ()
  | some _ => .ok (eraseKey b k)

/-- The key the delete handler passes to the backend: the URL path with
the prefix `"/delete/"` trimmed — the route is registered at
`"/api/delete/"`, which does not start with `"/delete/"` — then
whitespace-trimmed. -/
def deleteKeyOfPath (urlPath : List Char) : List Char :=
  trimSpace (trimPfxGo "/delete/".toList urlPath)

/-- Likewise for the download handler with `"/download/"`. -/
def downloadKeyOfPath (urlPath : List Char) : List Char :=
  trimSpace (trimPfxGo "/download/".toList urlPath)

/-- `deleteHandler`: method check, empty-path check, then
`ObjectStore.Delete`; any backend error is reported as 500, success as
200 with a success body.  Result: (HTTP status, bucket after). -/
def deleteHandler (b : Bucket) (method urlPath : List Char) :
    Nat × Bucket :=
  if ¬(method = "DELETE".toList) then (405, b)
  else if trimPfxGo "/delete/".toList urlPath = [] then (400, b)
  else
    match storeDelete b (deleteKeyOfPath urlPath) with
    | .error _ => (500, b)
    | .ok b2 => (200, b2)

theorem hasPfx_delete_api (rest : List Char) :
    hasPfx "/delete/".toList ("/api/delete/".toList ++ rest) = false := by
  rw [show "/delete/".toList = '/' :: 'd' :: "elete/".toList from rfl,
    show "/api/delete/".toList ++ rest =
      '/' :: 'a' :: ("pi/delete/".toList ++ rest) from rfl]
  rw [hasPfx, if_pos rfl, hasPfx, if_neg (by decide)]

theorem hasPfx_download_api (rest : List Char) :
    hasPfx "/download/".toList ("/api/download/".toList ++ rest) = false := by
  rw [show "/download/".toList = '/' :: 'd' :: "ownload/".toList from rfl,
    show "/api/download/".toList ++ rest =
      '/' :: 'a' :: ("pi/download/".toList ++ rest) from rfl]
  rw [hasPfx, if_pos rfl, hasPfx, if_neg (by decide)]

/-- On any request to the registered delete route, the key handed to the
backend contains a path separator. -/
theorem deleteKeyOfPath_mem_slash (rest : List Char) :
    '/' ∈ deleteKeyOfPath ("/api/delete/".toList ++ rest) := by
  unfold deleteKeyOfPath trimPfxGo
  rw [hasPfx_delete_api rest]
  simp only [Bool.false_eq_true, if_false]
  rw [show "/api/delete/".toList ++ rest =
    '/' :: ("api/delete/".toList ++ rest) from rfl]
  rw [trimSpace_cons (by decide)]
  simp

theorem downloadKeyOfPath_mem_slash (rest : List Char) :
    '/' ∈ downloadKeyOfPath ("/api/download/".toList ++ rest) := by
  unfold downloadKeyOfPath trimPfxGo
  rw [hasPfx_download_api rest]
  simp only [Bool.false_eq_true, if_false]
  rw [show "/api/download/".toList ++ rest =
    '/' :: ("api/download/".toList ++ rest) from rfl]
  rw [trimSpace_cons (by decide)]
  simp

theorem printNat_all_allowed (n : Nat) :
    ∀ c ∈ printNat n, isAllowedCh c = true := by
  intro c hc
  unfold printNat at hc
  by_cases hn : n = 0
  · simp [hn] at hc; subst hc; decide
  · rw [if_neg hn] at hc
    simp only [List.mem_reverse, List.mem_map] at hc
    obtain ⟨d, hd, rfl⟩ := hc
    rw [digitsRevFuel_eq_digits n n le_rfl] at hd
    have : d < 10 := Nat.digits_lt_base (by omega) hd
    interval_cases d <;> decide

/-- Every character of an upload key is in `[A-Za-z0-9._-]`, and the key
is non-empty. -/
theorem makeKey_good (timestamp : Nat) (rawName : List Char) :
    makeKey timestamp rawName ≠ [] ∧
      ∀ c ∈ makeKey timestamp rawName, isAllowedCh c = true := by
  constructor
  · intro h
    exact printNat_ne_nil timestamp (List.append_eq_nil.mp h).1
  · intro c hc
    unfold makeKey at hc
    rw [List.mem_append] at hc
    rcases hc with hc | hc
    · exact printNat_all_allowed timestamp c hc
    · rw [List.mem_cons] at hc
      rcases hc with rfl | hc
      · decide
      · exact sanitizeFilename_all_allowed rawName c hc

/-- C3 counterexample: on the request `DELETE /api/delete/1700000000_notes.txt`,
the key the delete handler passes to the backend contains `'/'`, a
character outside `[A-Za-z0-9._-]` — the invariant fails for the delete
path. -/
theorem backend_key_charset_cex :
    '/' ∈ deleteKeyOfPath "/api/delete/1700000000_notes.txt".toList ∧
      isAllowedCh '/' = false := by
  constructor
  · decide
  · decide

/-- C3 amended: keys the upload handler passes to the backend are
non-empty and contain only `[A-Za-z0-9._-]`, by construction of
`makeKey`; the delete and download handlers, however, derive their key
from the raw request path (whose registered-route prefix survives the
mismatched `TrimPrefix`), so on every request to those routes the key
handed to the backend contains `'/'` and violates the character-class
invariant. -/
theorem backend_key_invariant_upload_only
    (timestamp : Nat) (rawName rest rest2 : List Char) :
    (makeKey timestamp rawName ≠ [] ∧
      ∀ c ∈ makeKey timestamp rawName, isAllowedCh c = true) ∧
    ('/' ∈ deleteKeyOfPath ("/api/delete/".toList ++ rest) ∧
      isAllowedCh '/' = false) ∧
    ('/' ∈ downloadKeyOfPath ("/api/download/".toList ++ rest2) ∧
      isAllowedCh '/' = false) :=
  ⟨makeKey_good timestamp rawName,
   ⟨deleteKeyOfPath_mem_slash rest, by decide⟩,
   ⟨downloadKeyOfPath_mem_slash rest2, by decide⟩⟩

/-- C6 counterexample: deleting an absent key is answered with 500, not
404: the handler maps every backend error to
`"Failed to delete object"` / `StatusInternalServerError`. -/
theorem delete_absent_key_500_cex :
    deleteHandler [] "DELETE".toList "/api/delete/1700000000_notes.txt".toList
      = (500, []) := by
  decide

/-- C6 amended: removing an absent key fails — but is surfaced to the
HTTP caller as a generic 500, not 404; deleting the same key twice, the
first delete succeeds with 200 and removes the key, and the second fails
with that 500 (never a silent success), leaving the store unchanged. -/
theorem delete_twice_second_500 (b : Bucket) (rest : List Char) :
    (lookupKey b (deleteKeyOfPath ("/api/delete/".toList ++ rest)) = none →
      deleteHandler b "DELETE".toList ("/api/delete/".toList ++ rest) =
        (500, b)) ∧
    (∀ v,
      lookupKey b (deleteKeyOfPath ("/api/delete/".toList ++ rest)) = some v →
      deleteHandler b "DELETE".toList ("/api/delete/".toList ++ rest) =
        (200, eraseKey b (deleteKeyOfPath ("/api/delete/".toList ++ rest))) ∧
      deleteHandler
          (eraseKey b (deleteKeyOfPath ("/api/delete/".toList ++ rest)))
          "DELETE".toList ("/api/delete/".toList ++ rest) =
        (500, eraseKey b (deleteKeyOfPath ("/api/delete/".toList ++ rest)))) := by
  have hpath : trimPfxGo "/delete/".toList ("/api/delete/".toList ++ rest) =
      "/api/delete/".toList ++ rest := by
    unfold trimPfxGo
    rw [hasPfx_delete_api rest]
    simp
  have hne : ¬ trimPfxGo "/delete/".toList ("/api/delete/".toList ++ rest)
      = [] := by
    rw [hpath]; simp
  constructor
  · intro habs
    unfold deleteHandler
    rw [if_neg (by simp), if_neg hne]
    unfold storeDelete
    rw [habs]
  · intro v hv
    constructor
    · unfold deleteHandler
      rw [if_neg (by simp), if_neg hne]
      unfold storeDelete
      rw [hv]
    · unfold deleteHandler
      rw [if_neg (by simp), if_neg hne]
      unfold storeDelete
      rw [lookupKey_eraseKey]

/-- Witness for the amended C6 theorem on a one-object store: the first
delete answers 200 and removes the object, the second answers 500. -/
theorem delete_twice_second_500_witness :
    (lookupKey [("/api/delete/x".toList, 7)]
        (deleteKeyOfPath ("/api/delete/".toList ++ "x".toList)) = some 7) ∧
    deleteHandler [("/api/delete/x".toList, 7)] "DELETE".toList
        ("/api/delete/".toList ++ "x".toList) =
      (200, eraseKey [("/api/delete/x".toList, 7)]
        (deleteKeyOfPath ("/api/delete/".toList ++ "x".toList))) ∧
    deleteHandler
        (eraseKey [("/api/delete/x".toList, 7)]
          (deleteKeyOfPath ("/api/delete/".toList ++ "x".toList)))
        "DELETE".toList ("/api/delete/".toList ++ "x".toList) =
      (500, eraseKey [("/api/delete/x".toList, 7)]
        (deleteKeyOfPath ("/api/delete/".toList ++ "x".toList))) :=
  ⟨by decide,
   ((delete_twice_second_500 [("/api/delete/x".toList, 7)] "x".toList).2 7
     (by decide)).1,
   ((delete_twice_second_500 [("/api/delete/x".toList, 7)] "x".toList).2 7
     (by decide)).2⟩

/-! ## The upload handler

`uploadHandler` from `internal/http/server.go`.  `r.ParseMultipartForm(32
<< 20)` is a standard-library call whose argument is only the in-memory
buffering threshold: the multipart parser accepts bodies of any size,
spilling the excess to temporary files, so its success is independent of
the payload size and the handler contains no size comparison at all. -/

/-- The parts of a multipart upload request the handler consumes.
`parseOk` is the success of `ParseMultipartForm` (malformed form data),
`hasFile` the success of `r.FormFile("file")`, `size` the byte count of
the uploaded payload. -/
structure UploadRequest where
  method : List Char
  parseOk : Bool
  hasFile : Bool
  filename : List Char
  typeField : List Char
  size : Nat

/-- `maxMemory = 32 << 20`: the 32 MiB buffering threshold. -/
def uploadMaxMemory : Nat := 32 * 2 ^ 20

/-- `contentType := r.FormValue("type")`, defaulted to `"file"`. -/
def uploadContentType (r : UploadRequest) : List Char :=
  if r.typeField = [] then "file".toList else r.typeField

/-- The filename after the empty-name fallback switch on the content
type. -/
def effectiveUploadName (r : UploadRequest) : List Char :=
  if r.filename = [] then
    if uploadContentType r = "text".toList then "text.txt".toList
    else if uploadContentType r = "url".toList then "url.txt".toList
    else "unnamed_file".toList
  else r.filename

/-- `uploadHandler`: method check, form parse, file extraction, key
construction and the backend put (`PutReader`; NATS `Put` overwrites an
existing key, and the backend write is modelled as succeeding).  Result:
(HTTP status, bucket after, the key on success). -/
def uploadHandlerM (b : Bucket) (nowSec : Nat) (r : UploadRequest) :
    Nat × Bucket × Option (List Char) :=
  if ¬(r.method = "POST".toList) then (405, b, none)
  else if ¬r.parseOk then (400, b, none)
  else if ¬r.hasFile then (400, b, none)
  else
    (200,
     (makeKey nowSec (effectiveUploadName r), r.size) ::
       eraseKey b (makeKey nowSec (effectiveUploadName r)),
     some (makeKey nowSec (effectiveUploadName r)))

/-- A well-formed 40 MiB upload request. -/
def req40MiB : UploadRequest :=
  { method := "POST".toList, parseOk := true, hasFile := true,
    filename := "big.bin".toList, typeField := [], size := 40 * 2 ^ 20 }

/-- C7 counterexample: a 40 MiB upload against the 32 MiB `maxMemory`
constant is accepted with 200 — not rejected with 413 — and its entry is
in the object list afterwards. -/
theorem upload_40MiB_accepted_cex :
    40 * 2 ^ 20 > uploadMaxMemory ∧
    (uploadHandlerM [] 1700000000 req40MiB).1 = 200 ∧
    ¬ (uploadHandlerM [] 1700000000 req40MiB).1 = 413 ∧
    lookupKey (uploadHandlerM [] 1700000000 req40MiB).2.1
      (makeKey 1700000000 "big.bin".toList) = some (40 * 2 ^ 20) := by
  refine ⟨by decide, by decide, by decide, by decide⟩

/-- C7 amended: the upload handler passes 32 MiB to the multipart parser
only as a memory-buffering threshold; it never rejects a payload for its
size — no execution path returns 413 — and a well-formed upload of any
size, 40 MiB included, is accepted with 200 and appears in the object
list under its key. -/
theorem upload_has_no_size_ceiling (b : Bucket) (nowSec : Nat)
    (r : UploadRequest) :
    ¬ (uploadHandlerM b nowSec r).1 = 413 ∧
    (r.method = "POST".toList → r.parseOk = true → r.hasFile = true →
      (uploadHandlerM b nowSec r).1 = 200 ∧
      lookupKey (uploadHandlerM b nowSec r).2.1
        (makeKey nowSec (effectiveUploadName r)) = some r.size) := by
  constructor
  · unfold uploadHandlerM
    split
    · simp
    split
    · simp
    split
    · simp
    · simp
  · intro hm hp hf
    unfold uploadHandlerM
    rw [if_neg (by rw [hm]; simp), if_neg (by rw [hp]; simp),
      if_neg (by rw [hf]; simp)]
    exact ⟨rfl, lookupKey_insert _ _ _⟩

/-- Witness for the amended C7 theorem at the concrete 40 MiB request. -/
theorem upload_has_no_size_ceiling_witness :
    (req40MiB.method = "POST".toList ∧ req40MiB.parseOk = true ∧
      req40MiB.hasFile = true) ∧
    (uploadHandlerM [] 1700000000 req40MiB).1 = 200 ∧
    lookupKey (uploadHandlerM [] 1700000000 req40MiB).2.1
      (makeKey 1700000000 (effectiveUploadName req40MiB)) =
      some req40MiB.size :=
  ⟨⟨rfl, rfl, rfl⟩,
   (upload_has_no_size_ceiling [] 1700000000 req40MiB).2 rfl rfl rfl⟩

/-! ## The stateful AuthManager

Embedding of `RevokeSession` and `CreateUser` from `internal/auth/auth.go`.
The Go maps `sessions` and `users` are association lists here; the mutex
serialises access and plays no role in the sequential properties below.
`bcrypt.GenerateFromPassword` (golang.org/x/crypto v0.40.0, as pinned by
`go.mod`) deterministically rejects passwords longer than 72 bytes with
`ErrPasswordTooLong`; at `bcrypt.DefaultCost` the cost checks cannot fire,
and the salted hash itself (external randomness) is an abstract
parameter.  Go's `len` on a string counts bytes, so password lengths are
measured in UTF-8 bytes. -/

/-- `Session{ID, Username, CreatedAt, ExpiresAt}`. -/
structure GoSession where
  id : List Char
  username : List Char
  createdAt : Nat
  expiresAt : Nat
deriving DecidableEq, Repr

/-- The error `RevokeSession` returns on an unknown id. -/
inductive RevokeErr where
  | sessionNotFound
deriving DecidableEq, Repr

/-- `RevokeSession(sessionID)`: look the id up; return the
`"session not found"` error (leaving the table untouched) when absent,
otherwise delete the entry and return nil.  Result: (table after, error). -/
def RevokeSession (sessions : List (List Char × GoSession))
    (sessionID : List Char) :
    List (List Char × GoSession) × Option RevokeErr :=
  match lookupKey sessions sessionID with
  | none => (sessions, some .sessionNotFound)
  | some _ => (eraseKey sessions sessionID, none)

/-- C5 counterexample: revoking an id that is unknown (here: any id on an
empty table, as after a previous revocation) is an error, not a no-op
success — `RevokeSession` returns the `"session not found"` error. -/
theorem revoke_unknown_id_errors_cex :
    RevokeSession [] "deadbeef".toList = ([], some .sessionNotFound) := by
  decide

/-- C5 amended: revocation is idempotent on the table — revoking an
unknown or already-revoked id leaves the table unchanged and never
panics — but it is reported as a `"session not found"` error rather than
a silent no-op: the second of two revocations of the same id leaves the
table exactly as the first left it and returns that error. -/
theorem revoke_twice_state_noop_but_errors
    (sessions : List (List Char × GoSession)) (sessionID : List Char) :
    (RevokeSession (RevokeSession sessions sessionID).1 sessionID).1 =
      (RevokeSession sessions sessionID).1 ∧
    (RevokeSession (RevokeSession sessions sessionID).1 sessionID).2 =
      some .sessionNotFound := by
  unfold RevokeSession
  cases h : lookupKey sessions sessionID with
  | none => simp [h]
  | some s => simp [lookupKey_eraseKey]

/-- `MinPasswordLength = 8`. -/
def MinPasswordLength : Nat := 8

/-- Go `len` of a string: its UTF-8 byte count. -/
def utf8Len (s : List Char) : Nat := (s.map Char.utf8Size).sum

/-- `User{Username, PasswordHash, CreatedAt}` (LastLogin omitted: no
embedded operation reads or writes it). -/
structure GoUser where
  username : List Char
  passwordHash : List Char
  createdAt : Nat
deriving DecidableEq, Repr

/-- `bcrypt.GenerateFromPassword(password, bcrypt.DefaultCost)` in the
pinned x/crypto v0.40.0: fail with `ErrPasswordTooLong` when the password
exceeds 72 bytes, otherwise hash (the salted hash is the abstract
`bcryptCore`). -/
def bcryptGenerateFromPassword (bcryptCore : List Char → List Char)
    (password : List Char) : Except Unit (List Char) :=
  if utf8Len password > 72 then .error () else .ok (bcryptCore password)

/-- The four distinct errors of `CreateUser`, in the order the Go code
checks for them (`hashFailed` wraps a `GenerateFromPassword` error). -/
inductive CreateUserErr where
  | emptyUsername
  | userExists
  | weakPassword
  | hashFailed
deriving DecidableEq, Repr

/-- `CreateUser(username, password)` at time `now`: validate the
username, the user's absence and the password length in that order, then
hash via `bcrypt.GenerateFromPassword` — propagating its error — and
insert. -/
def CreateUser (bcryptCore : List Char → List Char)
    (users : List (List Char × GoUser)) (username password : List Char)
    (now : Nat) : Except CreateUserErr (List (List Char × GoUser)) :=
  if username = [] then .error .emptyUsername
  else if (lookupKey users username).isSome then .error .userExists
  else if utf8Len password < MinPasswordLength then .error .weakPassword
  else
    match bcryptGenerateFromPassword bcryptCore password with
    | .error _ => .error .hashFailed
    | .ok h =>
      .ok ((username,
        { username := username, passwordHash := h,
          createdAt := now }) :: users)

/-- A stand-in core hash for witnesses (any function exercises
`CreateUser`, which treats the hash opaquely). -/
def bcryptW : List Char → List Char := fun p => 'h' :: p

/-- C8 counterexample: with a record for `"alice"` already present,
`CreateUser` on `"alice"` with the ≥ 8-character (and ≤ 72-byte)
password `"correct-horse"` fails with the user-exists error and stores
nothing — it does not overwrite the existing record. -/
theorem create_user_no_overwrite_cex :
    (utf8Len "correct-horse".toList ≥ 8) ∧
    CreateUser bcryptW
        [("alice".toList,
          { username := "alice".toList, passwordHash := "old".toList,
            createdAt := 0 })]
        "alice".toList "correct-horse".toList 5 =
      .error .userExists := by
  constructor
  · decide
  · rfl

/-- C8 amended: `CreateUser` fails when the username is empty or already
present (the existence check precedes the password check); otherwise it
fails with the weak-password error exactly when the password is shorter
than 8 bytes; with at least 8 but more than 72 bytes it fails with the
wrapped `bcrypt` hashing error (`ErrPasswordTooLong`); for a new,
non-empty username and a password of 8 to 72 bytes it hashes the
password and stores the record, which a subsequent lookup returns.  It
never overwrites an existing record. -/
theorem create_user_validates_then_inserts
    (bcryptCore : List Char → List Char)
    (users : List (List Char × GoUser)) (username password : List Char)
    (now : Nat) :
    (username = [] →
      CreateUser bcryptCore users username password now =
        .error .emptyUsername) ∧
    (∀ u, lookupKey users username = some u →
      username ≠ [] →
      CreateUser bcryptCore users username password now =
        .error .userExists) ∧
    (username ≠ [] → lookupKey users username = none →
      utf8Len password < 8 →
      CreateUser bcryptCore users username password now =
        .error .weakPassword) ∧
    (username ≠ [] → lookupKey users username = none →
      8 ≤ utf8Len password → 72 < utf8Len password →
      CreateUser bcryptCore users username password now =
        .error .hashFailed) ∧
    (username ≠ [] → lookupKey users username = none →
      8 ≤ utf8Len password → utf8Len password ≤ 72 →
      ∃ users2,
        CreateUser bcryptCore users username password now = .ok users2 ∧
        lookupKey users2 username =
          some { username := username, passwordHash := bcryptCore password,
                 createdAt := now }) := by
  refine ⟨?_, ?_, ?_, ?_, ?_⟩
  · intro h
    unfold CreateUser
    rw [if_pos h]
  · intro u hu hne
    unfold CreateUser
    rw [if_neg hne, if_pos (by rw [hu]; rfl)]
  · intro hne habs hshort
    unfold CreateUser
    rw [if_neg hne, if_neg (by rw [habs]; simp),
      if_pos (by unfold MinPasswordLength; omega)]
  · intro hne habs hlong h72
    unfold CreateUser bcryptGenerateFromPassword
    rw [if_neg hne, if_neg (by rw [habs]; simp),
      if_neg (by unfold MinPasswordLength; omega), if_pos h72]
  · intro hne habs hlong h72
    unfold CreateUser bcryptGenerateFromPassword
    rw [if_neg hne, if_neg (by rw [habs]; simp),
      if_neg (by unfold MinPasswordLength; omega), if_neg (by omega)]
    exact ⟨_, rfl, lookupKey_insert _ _ _⟩

/-- Witness for the amended C8 theorem: creating `"bob"` with the
8-byte password `"hunter22"` on an empty user table succeeds and stores
the hashed record. -/
theorem create_user_validates_then_inserts_witness :
    ("bob".toList ≠ [] ∧ lookupKey ([] : List (List Char × GoUser))
        "bob".toList = none ∧ 8 ≤ utf8Len "hunter22".toList ∧
      utf8Len "hunter22".toList ≤ 72) ∧
    (∃ users2,
      CreateUser bcryptW [] "bob".toList "hunter22".toList 42 = .ok users2 ∧
      lookupKey users2 "bob".toList =
        some { username := "bob".toList,
               passwordHash := bcryptW "hunter22".toList,
               createdAt := 42 }) :=
  ⟨⟨by decide, rfl, by decide, by decide⟩,
   (create_user_validates_then_inserts bcryptW [] "bob".toList
       "hunter22".toList 42).2.2.2.2 (by decide) rfl (by decide) (by decide)⟩

/-! ## The CORS middleware

`corsMiddleware` from the HTTP auth/middleware file.  In `Start()` the
chain is `corsMiddleware(authMiddleware(mux))`: CORS runs first, and an
OPTIONS request is answered 204 immediately, before the auth gate.  A
handler is modelled as a function from the request and the response
headers written so far to a status and the final headers. -/

abbrev HeaderMap := List (List Char × List Char)

/-- `w.Header().Set(k, v)`: replace any existing value under `k`. -/
def hdrSet (h : HeaderMap) (k v : List Char) : HeaderMap :=
  (k, v) :: h.filter fun p => decide (p.1 ≠ k)

/-- Header read-back. -/
def hdrGet (h : HeaderMap) (k : List Char) : Option (List Char) :=
  lookupKey h k

/-- The request data the middleware inspects. -/
structure CorsRequest where
  method : List Char
  path : List Char

/-- The three `Set` calls at the top of `corsMiddleware`, in order. -/
def corsSetHeaders (h : HeaderMap) : HeaderMap :=
  hdrSet
    (hdrSet (hdrSet h "Access-Control-Allow-Origin".toList "*".toList)
      "Access-Control-Allow-Methods".toList "GET, POST, OPTIONS".toList)
    "Access-Control-Allow-Headers".toList "Content-Type".toList

/-- `corsMiddleware(next)`: set the three headers; a request whose method
is OPTIONS is answered `204 No Content` at once, anything else is passed
to `next`. -/
def corsMiddleware (next : CorsRequest → HeaderMap → Nat × HeaderMap)
    (r : CorsRequest) (h : HeaderMap) : Nat × HeaderMap :=
  if r.method = "OPTIONS".toList then (204, corsSetHeaders h)
  else next r (corsSetHeaders h)

/-- An inner handler for witnesses: answers 200 and writes no headers. -/
def nextW : CorsRequest → HeaderMap → Nat × HeaderMap := fun _ h => (200, h)

theorem hdrGet_hdrSet_same (h : HeaderMap) (k v : List Char) :
    hdrGet (hdrSet h k v) k = some v := by
  unfold hdrGet hdrSet
  exact lookupKey_insert _ _ _

theorem lookupKey_filter_ne {β : Type} (m : List (List Char × β))
    (k k2 : List Char) (hne : k ≠ k2) :
    lookupKey (m.filter fun p => decide (p.1 ≠ k)) k2 = lookupKey m k2 := by
  induction m with
  | nil => rfl
  | cons p t ih =>
    obtain ⟨a, b⟩ := p
    by_cases ha : a = k
    · subst ha
      simpa [lookupKey, hne] using ih
    · by_cases ha2 : a = k2
      · subst ha2
        simp [lookupKey, ha]
      · simpa [lookupKey, ha, ha2] using ih

theorem hdrGet_hdrSet_other (h : HeaderMap) (k k2 v : List Char)
    (hne : k ≠ k2) : hdrGet (hdrSet h k v) k2 = hdrGet h k2 := by
  unfold hdrGet hdrSet
  rw [lookupKey, if_neg hne, lookupKey_filter_ne h k k2 hne]

/-- The header names the middleware owns. -/
def corsHeaderKeys : List (List Char) :=
  ["Access-Control-Allow-Origin".toList,
   "Access-Control-Allow-Methods".toList,
   "Access-Control-Allow-Headers".toList]

theorem corsSetHeaders_values (h : HeaderMap) :
    hdrGet (corsSetHeaders h) "Access-Control-Allow-Origin".toList =
      some "*".toList ∧
    hdrGet (corsSetHeaders h) "Access-Control-Allow-Methods".toList =
      some "GET, POST, OPTIONS".toList ∧
    hdrGet (corsSetHeaders h) "Access-Control-Allow-Headers".toList =
      some "Content-Type".toList := by
  unfold corsSetHeaders
  refine ⟨?_, ?_, ?_⟩
  · rw [hdrGet_hdrSet_other _ _ _ _ (by decide),
      hdrGet_hdrSet_other _ _ _ _ (by decide), hdrGet_hdrSet_same]
  · rw [hdrGet_hdrSet_other _ _ _ _ (by decide), hdrGet_hdrSet_same]
  · rw [hdrGet_hdrSet_same]

/-- C9 counterexample: the allowed-methods header the middleware puts on
every response — the preflight response included — is
`"GET, POST, OPTIONS"`: DELETE is not in the list. -/
theorem cors_methods_list_lacks_delete_cex :
    hdrGet (corsMiddleware nextW ⟨"OPTIONS".toList, "/api/list".toList⟩ []).2
        "Access-Control-Allow-Methods".toList =
      some "GET, POST, OPTIONS".toList ∧
    "GET, POST, OPTIONS".toList ≠ "GET, POST, DELETE, OPTIONS".toList := by
  constructor
  · decide
  · decide

/-- C9 amended: the middleware stamps `Access-Control-Allow-Origin: *`,
`Access-Control-Allow-Methods: GET, POST, OPTIONS` (DELETE is absent from
the list) and `Access-Control-Allow-Headers: Content-Type` on the
response; an OPTIONS request is answered 204 immediately — the result
does not depend on the wrapped handler, so the auth gate is never
reached — and for other methods the headers survive onto the response
whenever the inner handler leaves these three header names untouched (as
every handler in this server does). -/
theorem cors_headers_and_preflight
    (next : CorsRequest → HeaderMap → Nat × HeaderMap)
    (r : CorsRequest) (h : HeaderMap) :
    (r.method = "OPTIONS".toList →
      corsMiddleware next r h = (204, corsSetHeaders h)) ∧
    ((∀ r2 h2 k, k ∈ corsHeaderKeys →
        hdrGet (next r2 h2).2 k = hdrGet h2 k) →
      hdrGet (corsMiddleware next r h).2
          "Access-Control-Allow-Origin".toList = some "*".toList ∧
      hdrGet (corsMiddleware next r h).2
          "Access-Control-Allow-Methods".toList =
        some "GET, POST, OPTIONS".toList ∧
      hdrGet (corsMiddleware next r h).2
          "Access-Control-Allow-Headers".toList =
        some "Content-Type".toList) := by
  constructor
  · intro hm
    unfold corsMiddleware
    rw [if_pos hm]
  · intro hpres
    unfold corsMiddleware
    by_cases hm : r.method = "OPTIONS".toList
    · rw [if_pos hm]
      exact corsSetHeaders_values h
    · rw [if_neg hm]
      have hv := corsSetHeaders_values h
      refine ⟨?_, ?_, ?_⟩
      · rw [hpres r (corsSetHeaders h) _ (by unfold corsHeaderKeys; simp)]
        exact hv.1
      · rw [hpres r (corsSetHeaders h) _ (by unfold corsHeaderKeys; simp)]
        exact hv.2.1
      · rw [hpres r (corsSetHeaders h) _ (by unfold corsHeaderKeys; simp)]
        exact hv.2.2

/-- Witness for the amended C9 theorem: the preflight equation at an
OPTIONS request, and the three headers on a GET response through a
header-preserving inner handler. -/
theorem cors_headers_and_preflight_witness :
    corsMiddleware nextW ⟨"OPTIONS".toList, "/".toList⟩ [] =
      (204, corsSetHeaders []) ∧
    (hdrGet (corsMiddleware nextW ⟨"GET".toList, "/api/list".toList⟩ []).2
        "Access-Control-Allow-Origin".toList = some "*".toList ∧
      hdrGet (corsMiddleware nextW ⟨"GET".toList, "/api/list".toList⟩ []).2
          "Access-Control-Allow-Methods".toList =
        some "GET, POST, OPTIONS".toList ∧
      hdrGet (corsMiddleware nextW ⟨"GET".toList, "/api/list".toList⟩ []).2
          "Access-Control-Allow-Headers".toList =
        some "Content-Type".toList) :=
  ⟨(cors_headers_and_preflight nextW ⟨"OPTIONS".toList, "/".toList⟩ []).1 rfl,
   (cors_headers_and_preflight nextW ⟨"GET".toList, "/api/list".toList⟩ []).2
     (fun _ _ _ _ => rfl)⟩
